import Mathlib

/-!
# Verification of the HR token-exchange tool bridge

Shallow embedding of the Python sources of `hr-token-exchange-demo`
(`hr-agent/app/auth.py`, `hr-agent/app/mcp_client.py`,
`hr-agent/app/tools.py`, `hr-agent/app/main.py`) together with models of
the Python library primitives they rely on (`base64.b64decode`,
`json.loads`, dict/list operations, truthiness, exceptions), and proofs
of the behavioural properties stated in the specification.

Conventions:
* Python values flowing through JSON boundaries are modelled by the
  inductive `Json` (numbers as integers — the demo only exchanges
  integer numerics).
* A Python expression that may raise is modelled in `Except PyErr`.
* Mutable object state (the MCP client's `request_id` and
  `last_mcp_token` fields) is threaded explicitly through an `MCPState`
  record.
-/

namespace HRBridge

/-- JSON values (Python numbers restricted to integers; the demo never
exchanges fractional numbers). Dictionaries are association lists in
insertion order, as in Python. -/
inductive Json where
  | null : Json
  | bool (b : Bool) : Json
  | num (n : Int) : Json
  | str (s : String) : Json
  | arr (xs : List Json) : Json
  | obj (kvs : List (String × Json)) : Json

mutual

def decEqJson : (a b : Json) → Decidable (a = b)
  | .null, .null => .isTrue rfl
  | .null, .bool _ => .isFalse (fun h => Json.noConfusion h)
  | .null, .num _ => .isFalse (fun h => Json.noConfusion h)
  | .null, .str _ => .isFalse (fun h => Json.noConfusion h)
  | .null, .arr _ => .isFalse (fun h => Json.noConfusion h)
  | .null, .obj _ => .isFalse (fun h => Json.noConfusion h)
  | .bool _, .null => .isFalse (fun h => Json.noConfusion h)
  | .bool x, .bool y =>
    match decEq x y with
    | .isTrue h => .isTrue (by rw [h])
    | .isFalse h => .isFalse (fun hh => h (Json.bool.inj hh))
  | .bool _, .num _ => .isFalse (fun h => Json.noConfusion h)
  | .bool _, .str _ => .isFalse (fun h => Json.noConfusion h)
  | .bool _, .arr _ => .isFalse (fun h => Json.noConfusion h)
  | .bool _, .obj _ => .isFalse (fun h => Json.noConfusion h)
  | .num _, .null => .isFalse (fun h => Json.noConfusion h)
  | .num _, .bool _ => .isFalse (fun h => Json.noConfusion h)
  | .num x, .num y =>
    match decEq x y with
    | .isTrue h => .isTrue (by rw [h])
    | .isFalse h => .isFalse (fun hh => h (Json.num.inj hh))
  | .num _, .str _ => .isFalse (fun h => Json.noConfusion h)
  | .num _, .arr _ => .isFalse (fun h => Json.noConfusion h)
  | .num _, .obj _ => .isFalse (fun h => Json.noConfusion h)
  | .str _, .null => .isFalse (fun h => Json.noConfusion h)
  | .str _, .bool _ => .isFalse (fun h => Json.noConfusion h)
  | .str _, .num _ => .isFalse (fun h => Json.noConfusion h)
  | .str x, .str y =>
    match decEq x y with
    | .isTrue h => .isTrue (by rw [h])
    | .isFalse h => .isFalse (fun hh => h (Json.str.inj hh))
  | .str _, .arr _ => .isFalse (fun h => Json.noConfusion h)
  | .str _, .obj _ => .isFalse (fun h => Json.noConfusion h)
  | .arr _, .null => .isFalse (fun h => Json.noConfusion h)
  | .arr _, .bool _ => .isFalse (fun h => Json.noConfusion h)
  | .arr _, .num _ => .isFalse (fun h => Json.noConfusion h)
  | .arr _, .str _ => .isFalse (fun h => Json.noConfusion h)
  | .arr xs, .arr ys =>
    match decEqJsonList xs ys with
    | .isTrue h => .isTrue (by rw [h])
    | .isFalse h => .isFalse (fun hh => h (Json.arr.inj hh))
  | .arr _, .obj _ => .isFalse (fun h => Json.noConfusion h)
  | .obj _, .null => .isFalse (fun h => Json.noConfusion h)
  | .obj _, .bool _ => .isFalse (fun h => Json.noConfusion h)
  | .obj _, .num _ => .isFalse (fun h => Json.noConfusion h)
  | .obj _, .str _ => .isFalse (fun h => Json.noConfusion h)
  | .obj _, .arr _ => .isFalse (fun h => Json.noConfusion h)
  | .obj xs, .obj ys =>
    match decEqJsonObj xs ys with
    | .isTrue h => .isTrue (by rw [h])
    | .isFalse h => .isFalse (fun hh => h (Json.obj.inj hh))

def decEqJsonList : (a b : List Json) → Decidable (a = b)
  | [], [] => .isTrue rfl
  | [], _ :: _ => .isFalse (fun h => List.noConfusion h)
  | _ :: _, [] => .isFalse (fun h => List.noConfusion h)
  | x :: xs, y :: ys =>
    match decEqJson x y with
    | .isFalse h1 => .isFalse (fun h => h1 (List.cons.inj h).1)
    | .isTrue h1 =>
      match decEqJsonList xs ys with
      | .isTrue h2 => .isTrue (by rw [h1, h2])
      | .isFalse h2 => .isFalse (fun h => h2 (List.cons.inj h).2)

def decEqJsonObj : (a b : List (String × Json)) → Decidable (a = b)
  | [], [] => .isTrue rfl
  | [], _ :: _ => .isFalse (fun h => List.noConfusion h)
  | _ :: _, [] => .isFalse (fun h => List.noConfusion h)
  | (k1, v1) :: xs, (k2, v2) :: ys =>
    match decEq k1 k2 with
    | .isFalse h1 =>
      .isFalse (fun h => h1 (congrArg Prod.fst (List.cons.inj h).1))
    | .isTrue h1 =>
      match decEqJson v1 v2 with
      | .isFalse hv =>
        .isFalse (fun h => hv (congrArg Prod.snd (List.cons.inj h).1))
      | .isTrue hv =>
        match decEqJsonObj xs ys with
        | .isTrue h2 => .isTrue (by rw [h1, hv, h2])
        | .isFalse h2 => .isFalse (fun h => h2 (List.cons.inj h).2)

end

instance : DecidableEq Json := decEqJson

/-- Python exceptions that the embedded code can raise. -/
inductive PyErr where
  /-- a plain `Exception(msg)` raised by the repo's own code -/
  | exc (msg : String) : PyErr
  /-- `httpx.HTTPStatusError` from `response.raise_for_status()` -/
  | httpStatusError (code : Nat) : PyErr
  /-- `AttributeError` (e.g. `.get` on a non-dict) -/
  | attributeError : PyErr
  /-- `KeyError` from `d[k]` on a missing key -/
  | keyError (k : String) : PyErr
  /-- `TypeError` (e.g. `len()` of an int, `list["key"]`) -/
  | typeError : PyErr
  /-- `IndexError` from `xs[0]` on an empty list -/
  | indexError : PyErr
  /-- `NotImplementedError(msg)` -/
  | notImplementedError (msg : String) : PyErr
  deriving DecidableEq

/-- Decidable equality of `Except` outcomes, for evaluating the models
on concrete inputs. -/
instance {ε α : Type} [DecidableEq ε] [DecidableEq α] :
    DecidableEq (Except ε α) := fun a b =>
  match a, b with
  | .ok x, .ok y =>
    if h : x = y then .isTrue (by rw [h])
    else .isFalse (fun hh => h (Except.ok.inj hh))
  | .error e, .error f =>
    if h : e = f then .isTrue (by rw [h])
    else .isFalse (fun hh => h (Except.error.inj hh))
  | .ok _, .error _ => .isFalse (fun h => Except.noConfusion h)
  | .error _, .ok _ => .isFalse (fun h => Except.noConfusion h)

/-- First-match association-list lookup; Python dict keys are unique, so
this coincides with dict lookup. -/
def jlookup (kvs : List (String × Json)) (k : String) : Option Json :=
  match kvs with
  | [] => none
  | (k', v) :: rest => if k' = k then some v else jlookup rest k

mutual

/-- Model of Python `repr` on JSON-shaped values (used only inside
f-strings when a non-string value is interpolated). -/
def pyRepr : Json → String
  | .null => "None"
  | .bool true => "True"
  | .bool false => "False"
  | .num n => toString n
  | .str s => "'" ++ s ++ "'"
  | .arr xs => "[" ++ pyReprList xs ++ "]"
  | .obj kvs => "\x7b" ++ pyReprObj kvs ++ "\x7d"

/-- `repr` of a list's elements, comma separated. -/
def pyReprList : List Json → String
  | [] => ""
  | [x] => pyRepr x
  | x :: rest => pyRepr x ++ ", " ++ pyReprList rest

/-- `repr` of a dict's entries, comma separated. -/
def pyReprObj : List (String × Json) → String
  | [] => ""
  | [(k, v)] => "'" ++ k ++ "': " ++ pyRepr v
  | (k, v) :: rest => "'" ++ k ++ "': " ++ pyRepr v ++ ", " ++ pyReprObj rest
end

/-- Model of Python `str()` on JSON-shaped values (string interpolation
in f-strings). -/
def pyStr : Json → String
  | .str s => s
  | j => pyRepr j

/-- Model of Python truthiness on JSON-shaped values. -/
def pyTruthy : Json → Bool
  | .null => false
  | .bool b => b
  | .num n => n ≠ 0
  | .str s => s ≠ ""
  | .arr xs => ¬ xs.isEmpty
  | .obj kvs => ¬ kvs.isEmpty

/-- Model of Python `d.get(k, default)`: `AttributeError` when the
receiver is not a dict. -/
def pyGet (j : Json) (k : String) (default : Json) : Except PyErr Json :=
  match j with
  | .obj kvs =>
    match jlookup kvs k with
    | some v => .ok v
    | none => .ok default
  | _ => .error .attributeError

/-- Model of Python `d.get(k)` (no default: `None` when absent). -/
def pyGetOpt (j : Json) (k : String) : Except PyErr Json :=
  pyGet j k .null

/-- Model of Python `k in j` for a string key `k`: key membership on
dicts, element membership on lists, substring test on strings,
`TypeError` otherwise. -/
def pyContains (j : Json) (k : String) : Except PyErr Bool :=
  match j with
  | .obj kvs => .ok (kvs.any (fun kv => kv.1 = k))
  | .arr xs => .ok (xs.any (fun x => x = .str k))
  | .str s => .ok (decide ((s.splitOn k).length > 1))
  | _ => .error .typeError

/-- Model of Python `j[k]` subscripting with a string key. -/
def pySubscript (j : Json) (k : String) : Except PyErr Json :=
  match j with
  | .obj kvs =>
    match jlookup kvs k with
    | some v => .ok v
    | none => .error (.keyError k)
  | .str _ => .error .typeError
  | .arr _ => .error .typeError
  | _ => .error .typeError

/-- Model of Python `len(j)`: defined on lists, strings and dicts. -/
def pyLen (j : Json) : Except PyErr Nat :=
  match j with
  | .arr xs => .ok xs.length
  | .str s => .ok s.length
  | .obj kvs => .ok kvs.length
  | _ => .error .typeError

/-- Model of Python `j[0]`: first element of a list, first character of
a string (as a one-character string), `KeyError` on dicts (integer key
absent), `TypeError` otherwise. -/
def pyIndexZero (j : Json) : Except PyErr Json :=
  match j with
  | .arr [] => .error .indexError
  | .arr (x :: _) => .ok x
  | .str s =>
    match s.data with
    | [] => .error .indexError
    | c :: _ => .ok (.str (String.mk [c]))
  | .obj _ => .error (.keyError "0")
  | _ => .error .typeError

/-! ## Models of the Python library decoding primitives

`base64.b64decode` (lenient mode), UTF-8 byte decoding and `json.loads`
as used by `auth.py` and `main.py`. Bytes are `List Nat` (each < 256).
-/

/-- Index of a character in the standard base64 alphabet
`A-Z a-z 0-9 + /`, `none` for everything else. -/
def b64Index (c : Char) : Option Nat :=
  if 'A' ≤ c ∧ c ≤ 'Z' then some (c.toNat - 65)
  else if 'a' ≤ c ∧ c ≤ 'z' then some (c.toNat - 97 + 26)
  else if '0' ≤ c ∧ c ≤ '9' then some (c.toNat - 48 + 52)
  else if c = '+' then some 62
  else if c = '/' then some 63
  else none

/-- Decode a base64 character stream quad by quad; `=` padding is
accepted only at the end of the final quad. Any leftover of 1–3
characters is a padding error (`binascii.Error` in Python), modelled as
`none`. -/
def b64DecodeQuads : List Char → Option (List Nat)
  | [] => some []
  | c1 :: c2 :: c3 :: c4 :: rest => do
    let i1 ← b64Index c1
    let i2 ← b64Index c2
    if c3 = '=' then
      if c4 = '=' ∧ rest = [] then some [i1 * 4 + i2 / 16] else none
    else do
      let i3 ← b64Index c3
      if c4 = '=' then
        if rest = [] then some [i1 * 4 + i2 / 16, (i2 % 16) * 16 + i3 / 4]
        else none
      else do
        let i4 ← b64Index c4
        let b1 := i1 * 4 + i2 / 16
        let b2 := (i2 % 16) * 16 + i3 / 4
        let b3 := (i3 % 4) * 64 + i4
        let tail ← b64DecodeQuads rest
        some (b1 :: b2 :: b3 :: tail)
  | _ => none

/-- Model of Python `base64.b64decode` in its default lenient mode:
characters outside the alphabet and padding set are discarded, then the
remainder must decode in whole quads with trailing `=` padding. -/
def b64decode (s : String) : Option (List Nat) :=
  b64DecodeQuads (s.data.filter (fun c => (b64Index c).isSome ∨ c = '='))

/-- Is `b` a UTF-8 continuation byte (`0x80–0xBF`)? -/
def isContByte (b : Nat) : Bool := 0x80 ≤ b ∧ b ≤ 0xBF

/-- Payload bits of a continuation byte. -/
def contVal (b : Nat) : Nat := b - 0x80

/-- Decode a UTF-8 byte sequence to characters; `none` on any invalid,
truncated, overlong or surrogate-encoding sequence (Python raises
`UnicodeDecodeError`, caught by the callers modelled here). -/
def utf8Decode : List Nat → Option (List Char)
  | [] => some []
  | b :: rest =>
    if b < 0x80 then
      (utf8Decode rest).map (fun cs => Char.ofNat b :: cs)
    else if 0xC2 ≤ b ∧ b ≤ 0xDF then
      match rest with
      | b2 :: rest2 =>
        if isContByte b2 then
          (utf8Decode rest2).map
            (fun cs => Char.ofNat ((b - 0xC0) * 64 + contVal b2) :: cs)
        else none
      | [] => none
    else if 0xE0 ≤ b ∧ b ≤ 0xEF then
      match rest with
      | b2 :: b3 :: rest3 =>
        let lowOk : Bool :=
          if b = 0xE0 then 0xA0 ≤ b2 ∧ b2 ≤ 0xBF
          else if b = 0xED then 0x80 ≤ b2 ∧ b2 ≤ 0x9F
          else isContByte b2
        if lowOk ∧ isContByte b3 then
          (utf8Decode rest3).map
            (fun cs =>
              Char.ofNat ((b - 0xE0) * 4096 + contVal b2 * 64 + contVal b3) :: cs)
        else none
      | _ => none
    else if 0xF0 ≤ b ∧ b ≤ 0xF4 then
      match rest with
      | b2 :: b3 :: b4 :: rest4 =>
        let lowOk : Bool :=
          if b = 0xF0 then 0x90 ≤ b2 ∧ b2 ≤ 0xBF
          else if b = 0xF4 then 0x80 ≤ b2 ∧ b2 ≤ 0x8F
          else isContByte b2
        if lowOk ∧ isContByte b3 ∧ isContByte b4 then
          (utf8Decode rest4).map
            (fun cs =>
              Char.ofNat
                ((b - 0xF0) * 262144 + contVal b2 * 4096 +
                  contVal b3 * 64 + contVal b4) :: cs)
        else none
      | _ => none
    else none

/-- JSON insignificant whitespace. -/
def isJsonWs (c : Char) : Bool := c = ' ' ∨ c = '\t' ∨ c = '\n' ∨ c = '\r'

/-- Drop leading JSON whitespace. -/
def skipWs : List Char → List Char
  | [] => []
  | c :: rest => if isJsonWs c then skipWs rest else c :: rest

/-- Value of a hex digit. -/
def hexVal (c : Char) : Option Nat :=
  if '0' ≤ c ∧ c ≤ '9' then some (c.toNat - 48)
  else if 'a' ≤ c ∧ c ≤ 'f' then some (c.toNat - 87)
  else if 'A' ≤ c ∧ c ≤ 'F' then some (c.toNat - 55)
  else none

/-- Parse the body of a JSON string after the opening quote, handling
the standard escapes; `\uXXXX` is accepted for non-surrogate code
points. Returns the decoded characters and the remaining input. -/
def parseStringBody : List Char → Option (List Char × List Char)
  | [] => none
  | c :: rest =>
    if c = '"' then some ([], rest)
    else if c = '\\' then
      match rest with
      | [] => none
      | e :: rest2 =>
        if e = 'u' then
          match rest2 with
          | h1 :: h2 :: h3 :: h4 :: rest6 => do
            let v1 ← hexVal h1
            let v2 ← hexVal h2
            let v3 ← hexVal h3
            let v4 ← hexVal h4
            let code := v1 * 4096 + v2 * 256 + v3 * 16 + v4
            if 0xD800 ≤ code ∧ code ≤ 0xDFFF then none
            else
              (parseStringBody rest6).map
                (fun p => (Char.ofNat code :: p.1, p.2))
          | _ => none
        else do
          let decoded ←
            if e = '"' then some '"'
            else if e = '\\' then some '\\'
            else if e = '/' then some '/'
            else if e = 'b' then some (Char.ofNat 8)
            else if e = 'f' then some (Char.ofNat 12)
            else if e = 'n' then some '\n'
            else if e = 'r' then some '\r'
            else if e = 't' then some '\t'
            else none
          (parseStringBody rest2).map (fun p => (decoded :: p.1, p.2))
    else if c.toNat < 0x20 then none
    else (parseStringBody rest).map (fun p => (c :: p.1, p.2))

/-- Parse a run of decimal digits. -/
def parseDigits : List Char → List Char × List Char
  | [] => ([], [])
  | c :: rest =>
    if '0' ≤ c ∧ c ≤ '9' then
      let p := parseDigits rest
      (c :: p.1, p.2)
    else ([], c :: rest)

/-- Digits to a natural number (most significant first). -/
def digitsToNat (ds : List Char) : Nat :=
  ds.foldl (fun acc c => acc * 10 + (c.toNat - 48)) 0

mutual

/-- Fuel-indexed recursive-descent JSON value reader, modelling
`json.loads` (numbers restricted to integers: a fraction or exponent
part is treated as unsupported input). -/
def parseValue : Nat → List Char → Option (Json × List Char)
  | 0, _ => none
  | fuel + 1, cs =>
    match skipWs cs with
    | [] => none
    | c :: rest =>
      if c = '[' then parseElems fuel (skipWs rest) true
      else if c = '\x7b' then parseMembers fuel (skipWs rest) true
      else if c = 'n' then
        match rest with
        | 'u' :: 'l' :: 'l' :: rest4 => some (.null, rest4)
        | _ => none
      else if c = 't' then
        match rest with
        | 'r' :: 'u' :: 'e' :: rest4 => some (.bool true, rest4)
        | _ => none
      else if c = 'f' then
        match rest with
        | 'a' :: 'l' :: 's' :: 'e' :: rest5 => some (.bool false, rest5)
        | _ => none
      else if c = '"' then
        (parseStringBody rest).map (fun p => (.str (String.mk p.1), p.2))
      else if c = '-' ∨ ('0' ≤ c ∧ c ≤ '9') then
        let (neg, ds0) := if c = '-' then (true, rest) else (false, c :: rest)
        match parseDigits ds0 with
        | ([], _) => none
        | (ds, after) =>
          match after with
          | a :: _ =>
            if a = '.' ∨ a = 'e' ∨ a = 'E' then none
            else
              some (.num (if neg then -(digitsToNat ds : Int)
                          else (digitsToNat ds : Int)), after)
          | [] =>
            some (.num (if neg then -(digitsToNat ds : Int)
                        else (digitsToNat ds : Int)), after)
      else none

/-- Read the elements of a JSON array after `[`; `first` is true before
any element has been read. -/
def parseElems : Nat → List Char → Bool → Option (Json × List Char)
  | 0, _, _ => none
  | fuel + 1, cs, first => do
    match cs with
    | ']' :: rest => if first then some (.arr [], rest) else none
    | _ => do
      let (v, afterV) ← parseValue fuel cs
      match skipWs afterV with
      | ']' :: rest => some (.arr [v], rest)
      | ',' :: rest => do
        let (tailJ, rest2) ← parseElems fuel (skipWs rest) false
        match tailJ with
        | .arr xs => some (.arr (v :: xs), rest2)
        | _ => none
      | _ => none

/-- Read the members of a JSON object after the opening brace. -/
def parseMembers : Nat → List Char → Bool → Option (Json × List Char)
  | 0, _, _ => none
  | fuel + 1, cs, first => do
    match cs with
    | '\x7d' :: rest => if first then some (.obj [], rest) else none
    | '"' :: rest => do
      let (kcs, afterK) ← parseStringBody rest
      match skipWs afterK with
      | ':' :: rest2 => do
        let (v, afterV) ← parseValue fuel (skipWs rest2)
        match skipWs afterV with
        | '\x7d' :: rest3 => some (.obj [(String.mk kcs, v)], rest3)
        | ',' :: rest3 => do
          let (tailJ, rest4) ← parseMembers fuel (skipWs rest3) false
          match tailJ with
          | .obj kvs => some (.obj ((String.mk kcs, v) :: kvs), rest4)
          | _ => none
        | _ => none
      | _ => none
    | _ => none

end

/-- Model of `json.loads` applied to a UTF-8 byte payload: decode,
parse one value, and require only whitespace afterwards (`Extra data`
otherwise). -/
def jsonLoads (bytes : List Nat) : Option Json := do
  let cs ← utf8Decode bytes
  let (v, rest) ← parseValue (2 * cs.length + 8) cs
  if skipWs rest = [] then some v else none

/-! ## `app/auth.py` — `TokenContext` -/

/-- Model of `x or ""` applied to an optional string argument in
`TokenContext.__init__`. -/
def orEmpty : Option String → String
  | some s => s
  | none => ""

/-- The header-derived fields stored by `TokenContext.__init__`
(`auth.py`). The derived fields `exchanged_token` and `scopes_list` are
modelled as functions of this record, since `__init__` computes them
deterministically from it. -/
structure TokenContext where
  user_scopes : String
  user_sub : String
  actor_chain : String
  authorization : String
  x_introspection_token : String
  deriving DecidableEq

/-- `TokenContext(...)` construction from the optional header values
(each defaulted with `or ""`). -/
def TokenContext.make (user_scopes user_sub actor_chain authorization
    x_introspection_token : Option String) : TokenContext :=
  { user_scopes := orEmpty user_scopes
    user_sub := orEmpty user_sub
    actor_chain := orEmpty actor_chain
    authorization := orEmpty authorization
    x_introspection_token := orEmpty x_introspection_token }

/-- `base64.b64decode` followed by `json.loads`, the decoding pipeline
of `TokenContext._extract_exchanged_token`. -/
def b64JsonDecode (s : String) : Option Json :=
  (b64decode s).bind jsonLoads

/-- Model of `TokenContext._extract_exchanged_token` (`auth.py` lines
34–58): empty header yields `None`; otherwise base64-decode and
JSON-parse the header (any exception is caught, yielding `None`), then
`decoded_json.get("access_token")` (an `AttributeError` on a non-dict
is likewise caught), returning the value only when it is truthy. -/
def TokenContext.extract_exchanged_token (tc : TokenContext) : Option Json :=
  if tc.x_introspection_token = "" then none
  else
    match b64JsonDecode tc.x_introspection_token with
    | none => none
    | some j =>
      match pyGetOpt j "access_token" with
      | .error _ => none
      | .ok v => if pyTruthy v then some v else none

/-- The `exchanged_token` attribute set by `__init__`. -/
def TokenContext.exchanged_token (tc : TokenContext) : Option Json :=
  tc.extract_exchanged_token

/-- The `scopes_list` attribute:
`[s.strip() for s in self.user_scopes.split() if s.strip()]`
(whitespace split already yields stripped non-empty pieces). -/
def TokenContext.scopes_list (tc : TokenContext) : List String :=
  (tc.user_scopes.split (fun c => c.isWhitespace)).filter (fun s => s ≠ "")

/-- `TokenContext.has_scope`. -/
def TokenContext.has_scope (tc : TokenContext) (scope : String) : Bool :=
  tc.scopes_list.contains scope

/-- Model of `TokenContext.get_headers` (`auth.py` lines 64–79); the
returned dict is an insertion-ordered association list. -/
def TokenContext.get_headers (tc : TokenContext) (include_auth : Bool) :
    List (String × String) :=
  let headers := [("X-User-Scopes", tc.user_scopes),
                  ("X-User-Sub", tc.user_sub),
                  ("X-Actor-Chain", tc.actor_chain)]
  if include_auth ∧ tc.authorization ≠ "" then
    headers ++ [("Authorization", tc.authorization)]
  else headers

/-! ## `app/mcp_client.py` — `MCPClient` -/

/-- The mutable fields of an `MCPClient` instance. -/
structure MCPState where
  request_id : Nat
  last_mcp_token : Option String
  deriving DecidableEq

namespace MCPClient

/-- `MCPClient.__init__`: `request_id = 0`, `last_mcp_token = None`. -/
def new : MCPState := { request_id := 0, last_mcp_token := none }

/-- `MCPClient._next_id`: increment then return. -/
def next_id (st : MCPState) : Nat × MCPState :=
  (st.request_id + 1, { st with request_id := st.request_id + 1 })

end MCPClient

/-- An HTTP response as observed by the client: status code, response
headers, and the JSON-parsed body (`response.json()`; responses whose
bodies are not JSON raise before any of the logic modelled here and are
outside this model). -/
structure HttpResponse where
  status : Nat
  headers : List (String × String)
  body : Json

/-- ASCII lowercasing (HTTP header names are ASCII). -/
def asciiLower (s : String) : String :=
  String.mk (s.data.map
    (fun c => if 'A' ≤ c ∧ c ≤ 'Z' then Char.ofNat (c.toNat + 32) else c))

/-- httpx headers are case-insensitive; `response.headers.get(k)`. -/
def headersGet (hs : List (String × String)) (k : String) : Option String :=
  match hs with
  | [] => none
  | (k', v) :: rest =>
    if asciiLower k' = asciiLower k then some v else headersGet rest k

/-- httpx `response.is_success`: 2xx. -/
def statusOk (s : Nat) : Bool := 200 ≤ s ∧ s < 300

namespace MCPClient

/-- `response.raise_for_status()`: raises unless the status is 2xx. -/
def raise_for_status (r : HttpResponse) : Except PyErr Unit :=
  if statusOk r.status then .ok () else .error (.httpStatusError r.status)

/-- The JSON-RPC envelope each method posts. -/
def jsonrpc_request (id : Nat) (method : String) (params : Json) : Json :=
  .obj [("jsonrpc", .str "2.0"), ("id", .num id),
        ("method", .str method), ("params", params)]

/-- The outbound envelope of the client session-init method (`initialize` in the source) together with the
client state after `self._next_id()`. -/
def init_request (st : MCPState) : Json × MCPState :=
  let (rid, st1) := next_id st
  (jsonrpc_request rid "initialize" (.obj [("capabilities", .obj [])]), st1)

/-- The outbound envelope of `MCPClient.list_tools`. -/
def list_tools_request (st : MCPState) : Json × MCPState :=
  let (rid, st1) := next_id st
  (jsonrpc_request rid "tools/list" (.obj []), st1)

/-- The outbound envelope of `MCPClient.call_tool`. -/
def call_tool_request (st : MCPState) (tool_name : String)
    (arguments : Json) : Json × MCPState :=
  let (rid, st1) := next_id st
  (jsonrpc_request rid "tools/call"
      (.obj [("name", .str tool_name), ("arguments", arguments)]), st1)

/-- Response processing of the session-init method (`initialize` in
`mcp_client.py`, lines 24–57), given the response the POST produced. -/
def init_rpc (st : MCPState) (resp : HttpResponse) :
    Except PyErr Json × MCPState :=
  let st1 := (init_request st).2
  match raise_for_status resp with
  | .error e => (.error e, st1)
  | .ok _ =>
    let result := resp.body
    match pyContains result "error" with
    | .error e => (.error e, st1)
    | .ok true =>
      match pySubscript result "error" with
      | .error e => (.error e, st1)
      | .ok err => (.error (.exc ("MCP initialize error: " ++ pyStr err)), st1)
    | .ok false => (pyGet result "result" (.obj []), st1)

/-- `MCPClient.list_tools` response processing (`mcp_client.py` lines
59–92). -/
def list_tools (st : MCPState) (resp : HttpResponse) :
    Except PyErr Json × MCPState :=
  let st1 := (list_tools_request st).2
  match raise_for_status resp with
  | .error e => (.error e, st1)
  | .ok _ =>
    let result := resp.body
    match pyContains result "error" with
    | .error e => (.error e, st1)
    | .ok true =>
      match pySubscript result "error" with
      | .error e => (.error e, st1)
      | .ok err =>
        (.error (.exc ("MCP tools/list error: " ++ pyStr err)), st1)
    | .ok false =>
      ((do
        let r ← pyGet result "result" (.obj [])
        pyGet r "tools" (.arr [])), st1)

/-- The error path of `call_tool` (`mcp_client.py` lines 145–151):
`error = result["error"]`, `error.get("message", "Unknown error")`,
`error.get("data", {})`, then
`raise Exception(f"Tool '{tool_name}' failed: {error_msg}")`. -/
def tool_error_branch (tool_name : String) (result : Json) :
    Except PyErr Json := do
  let err ← pySubscript result "error"
  let msg ← pyGet err "message" (.str "Unknown error")
  let _d ← pyGet err "data" (.obj [])
  Except.error (.exc ("Tool '" ++ tool_name ++ "' failed: " ++ pyStr msg))

/-- The success path of `call_tool` (`mcp_client.py` lines 153–158):
`content = result.get("result", {}).get("content", [])`; when `content`
is truthy and non-empty, return `content[0].get("text", "")`, else
return `result.get("result", {})`. -/
def tool_success_branch (result : Json) : Except PyErr Json := do
  let r ← pyGet result "result" (.obj [])
  let content ← pyGet r "content" (.arr [])
  if pyTruthy content then do
    let n ← pyLen content
    if n > 0 then do
      let c0 ← pyIndexZero content
      pyGet c0 "text" (.str "")
    else do
      let r2 ← pyGet result "result" (.obj [])
      Except.ok r2
  else do
    let r2 ← pyGet result "result" (.obj [])
    Except.ok r2

/-- `MCPClient.call_tool` response processing (`mcp_client.py` lines
94–158): `raise_for_status`, then capture of a truthy `X-MCP-Token`
response header into `last_mcp_token`, then the JSON-RPC `error` check
dispatching to the error or success branch. -/
def call_tool (st : MCPState) (tool_name : String) (arguments : Json)
    (resp : HttpResponse) : Except PyErr Json × MCPState :=
  let st1 := (call_tool_request st tool_name arguments).2
  match raise_for_status resp with
  | .error e => (.error e, st1)
  | .ok _ =>
    let result := resp.body
    let st2 :=
      match headersGet resp.headers "X-MCP-Token" with
      | some v => if v ≠ "" then { st1 with last_mcp_token := some v } else st1
      | none => st1
    match pyContains result "error" with
    | .error e => (.error e, st2)
    | .ok true => (tool_error_branch tool_name result, st2)
    | .ok false => (tool_success_branch result, st2)

end MCPClient

/-- One JSON-RPC-issuing operation of the client. -/
inductive MCPOp where
  | initOp : MCPOp
  | listTools : MCPOp
  | callTool (tool_name : String) (arguments : Json) : MCPOp

/-- The outbound envelope an operation posts from a given state. -/
def opRequest (st : MCPState) : MCPOp → Json × MCPState
  | .initOp => MCPClient.init_request st
  | .listTools => MCPClient.list_tools_request st
  | .callTool n a => MCPClient.call_tool_request st n a

/-- Full state transition of an operation once its response arrives. -/
def opExec (st : MCPState) (op : MCPOp) (resp : HttpResponse) : MCPState :=
  match op with
  | .initOp => (MCPClient.init_rpc st resp).2
  | .listTools => (MCPClient.list_tools st resp).2
  | .callTool n a => (MCPClient.call_tool st n a resp).2

/-- The `id` field of a JSON-RPC envelope. -/
def jsonrpcId (req : Json) : Option Int :=
  match req with
  | .obj kvs =>
    match jlookup kvs "id" with
    | some (.num n) => some n
    | _ => none
  | _ => none

/-- The request IDs attached to the outbound envelopes along a sequence
of operations, each executed to completion on its response. -/
def issuedIds (st : MCPState) : List (MCPOp × HttpResponse) → List Int
  | [] => []
  | (op, resp) :: rest =>
    ((jsonrpcId (opRequest st op).1).getD 0) :: issuedIds (opExec st op resp) rest

/-! ## `app/tools.py` — `MCPToolFactory` -/

/-- The pydantic argument-schema classes, one per known tool kind. -/
inductive ArgsSchema where
  | GetEmployeeArgs | UpdateEmployeeArgs | ListDepartmentsArgs
  | GetSalaryArgs | UpdateSalaryArgs | GetOrgChartArgs
  | ListEmployeesArgs | ListEmployeesWithSalariesArgs
  | ListEmployeesByDepartmentArgs
  deriving DecidableEq

/-- A `StructuredTool` as built by `MCPToolFactory._create_langchain_tool`:
its behavioural fields (`func`, `coroutine`) are determined by `name`
and are modelled by `make_tool_func` / `make_tool_coroutine` below. -/
structure ToolBinding where
  name : String
  description : Json
  args_schema : ArgsSchema
  deriving DecidableEq

/-- Model of Python `==` between an arbitrary value and a string
literal: string contents compare, every non-string value is unequal. -/
def pyEqStr (j : Json) (s : String) : Bool :=
  match j with
  | .str t => t = s
  | _ => false

/-- Model of `MCPToolFactory._create_langchain_tool` (`tools.py` lines
100–190): the if/elif chain over the fixed known tool names; an
unrecognised name yields `None` (with a logged warning). `tool_name`
is kept as a JSON value since it is compared against string literals
with Python `==`. -/
def create_langchain_tool (tool_name : Json) (mcp_tool : Json) :
    Except PyErr (Option ToolBinding) := do
  let description ← pyGet mcp_tool "description" (.str "")
  if pyEqStr tool_name "get_employee" then
    pure (some ⟨"get_employee", description, .GetEmployeeArgs⟩)
  else if pyEqStr tool_name "update_employee" then
    pure (some ⟨"update_employee", description, .UpdateEmployeeArgs⟩)
  else if pyEqStr tool_name "list_departments" then
    pure (some ⟨"list_departments", description, .ListDepartmentsArgs⟩)
  else if pyEqStr tool_name "get_salary" then
    pure (some ⟨"get_salary", description, .GetSalaryArgs⟩)
  else if pyEqStr tool_name "update_salary" then
    pure (some ⟨"update_salary", description, .UpdateSalaryArgs⟩)
  else if pyEqStr tool_name "get_org_chart" then
    pure (some ⟨"get_org_chart", description, .GetOrgChartArgs⟩)
  else if pyEqStr tool_name "list_employees" then
    pure (some ⟨"list_employees", description, .ListEmployeesArgs⟩)
  else if pyEqStr tool_name "list_employees_with_salaries" then
    pure (some ⟨"list_employees_with_salaries", description,
                .ListEmployeesWithSalariesArgs⟩)
  else if pyEqStr tool_name "list_employees_by_department" then
    pure (some ⟨"list_employees_by_department", description,
                .ListEmployeesByDepartmentArgs⟩)
  else
    pure none

/-- One iteration of the mapping loop of
`MCPToolFactory.get_available_tools`: take `mcp_tool["name"]`, build
the binding, and append it when it is not `None` (`if tool:`). -/
def add_tool (acc : List ToolBinding) (mcp_tool : Json) :
    Except PyErr (List ToolBinding) := do
  let tool_name ← pySubscript mcp_tool "name"
  let tool ← create_langchain_tool tool_name mcp_tool
  match tool with
  | some t => pure (acc ++ [t])
  | none => pure acc

/-- The logging comprehension `[t['name'] for t in mcp_tools]` of
`get_available_tools`: subscripts every descriptor in order, raising on
the first one without a `name`. -/
def names_of (ts : List Json) : Except PyErr (List Json) :=
  match ts with
  | [] => .ok []
  | t :: rest => do
    let n ← pySubscript t "name"
    let ns ← names_of rest
    pure (n :: ns)

/-- Model of the mapping loop of `MCPToolFactory.get_available_tools`
(`tools.py` lines 73–98), applied to the descriptor list returned by
`list_tools`: the logging comprehension runs first, then the loop folds
`add_tool`. -/
def get_available_tools (mcp_tools : List Json) :
    Except PyErr (List ToolBinding) := do
  let _names ← names_of mcp_tools
  mcp_tools.foldlM add_tool []

/-- The fixed set of known tool names accepted by the factory. -/
def knownToolNames : List String :=
  ["get_employee", "update_employee", "list_departments", "get_salary",
   "update_salary", "get_org_chart", "list_employees",
   "list_employees_with_salaries", "list_employees_by_department"]

/-- Model of `str(e)` for the modelled exceptions (used when an error
is interpolated into a wrapper's output text). -/
def pyErrStr : PyErr → String
  | .exc m => m
  | .httpStatusError c => "HTTP status error " ++ toString c
  | .attributeError => "AttributeError"
  | .keyError k => "'" ++ k ++ "'"
  | .typeError => "TypeError"
  | .indexError => "list index out of range"
  | .notImplementedError m => m

/-- Model of the synchronous wrapper produced by
`MCPToolFactory._make_tool_func` (`tools.py` lines 192–198): it raises
`NotImplementedError` unconditionally, performing no remote call (it
never touches the client state, which is why no `MCPState` appears in
its type). -/
def make_tool_func (tool_name : String) (_kwargs : Json) : Except PyErr Json :=
  .error (.notImplementedError
    ("Use async version of " ++ tool_name ++ " - sync calls not supported"))

/-- Model of the asynchronous wrapper produced by
`MCPToolFactory._make_tool_coroutine` (`tools.py` lines 200–217), as a
function of the outcome of the underlying `call_tool` invocation: a
raised exception is caught and turned into an `"ERROR: ..."` string
result; the wrapper itself always returns normally. -/
def make_tool_coroutine (tool_name : String)
    (callResult : Except PyErr Json) : Json :=
  match callResult with
  | .ok result => result
  | .error e =>
    .str ("ERROR: " ++ ("Error calling " ++ tool_name ++ ": " ++ pyErrStr e))

/-! ## `app/main.py` — JWT display decoding and the delegation chain -/

/-- Model of `base64.urlsafe_b64decode`: translate `-`/`_` to `+`/`/`
and decode. -/
def urlsafe_b64decode (s : String) : Option (List Nat) :=
  b64decode (String.mk (s.data.map
    (fun c => if c = '-' then '+' else if c = '_' then '/' else c)))

/-- Character-level model of Python `token.split('.')`. -/
def splitDot : List Char → List (List Char)
  | [] => [[]]
  | c :: rest =>
    match splitDot rest with
    | [] => [[]]
    | g :: gs => if c = '.' then [] :: g :: gs else (c :: g) :: gs

/-- Model of `decode_jwt_payload` (`main.py` lines 24–41): split on
`.`, require exactly three segments, pad the middle segment to a
multiple of four, urlsafe-base64-decode, UTF-8-decode and JSON-parse;
every failure is caught and yields `None`. -/
def decode_jwt_payload (token : String) : Option Json :=
  match splitDot token.data with
  | [_, payload_b64, _] =>
    let padded :=
      if payload_b64.length % 4 ≠ 0 then
        payload_b64 ++ List.replicate (4 - payload_b64.length % 4) '='
      else payload_b64
    match urlsafe_b64decode (String.mk padded) with
    | none => none
    | some bytes => jsonLoads bytes
  | _ => none

/-- The `Bearer `/`bearer ` prefix stripping applied in `chat`
(`main.py` lines 187–190 and 215–218): drop the first seven characters
when the token starts with either spelling. -/
def stripBearer (t : String) : String :=
  if ("Bearer ".data).isPrefixOf t.data then String.mk (t.data.drop 7)
  else if ("bearer ".data).isPrefixOf t.data then String.mk (t.data.drop 7)
  else t

/-- A `TokenInfo` record of the chat response (`main.py` lines 57–63). -/
structure TokenInfo where
  token : String
  claims : Option Json
  hop : Nat
  description : String
  deriving DecidableEq

/-- The hop-1 description literal of `main.py`. -/
def hop1Description : String :=
  "Token exchanged by Kong OIDC for HR Agent (Hop 1: Flask UI → HR Agent)"

/-- The hop-2 description literal of `main.py`. -/
def hop2Description : String :=
  "Token exchanged by Kong OIDC for MCP Server (Hop 2: HR Agent → MCP Server)"

/-- The primary token resolved by `chat` (`main.py` lines 181–190):
the context's `exchanged_token`, or — when that is `None` and an
`Authorization` value is present — the `Bearer`-stripped
`Authorization` value. -/
def resolvePrimary (tc : TokenContext) : Option Json :=
  match tc.exchanged_token with
  | some v => some v
  | none =>
    if tc.authorization ≠ "" then some (.str (stripBearer tc.authorization))
    else none

/-- Model of the delegation-chain assembly of the `chat` endpoint
(`main.py` lines 176–241): hop 1 from the resolved primary token when
truthy (a non-string primary raises a `TypeError` at the token-preview
log line, aborting the request), then hop 2 from the client's
`last_mcp_token` when present and non-empty. -/
def chat_exchanged_tokens (tc : TokenContext) (last_mcp_token : Option String) :
    Except PyErr (List TokenInfo) := do
  let hop1 : List TokenInfo ←
    match resolvePrimary tc with
    | none => pure []
    | some v =>
      if pyTruthy v then
        match v with
        | .str s =>
          pure [⟨s, decode_jwt_payload s, 1, hop1Description⟩]
        | _ => Except.error PyErr.typeError
      else pure []
  let hop2 : List TokenInfo :=
    match last_mcp_token with
    | some s =>
      if s ≠ "" then
        let mcp_token := stripBearer s
        [⟨mcp_token, decode_jwt_payload mcp_token, 2, hop2Description⟩]
      else []
    | none => []
  pure (hop1 ++ hop2)

/-! ## Helper lemmas -/

/-- `do`-unfolding for a successful first step. -/
theorem except_bind_ok {α β ε : Type} (a : α) (f : α → Except ε β) :
    (Except.ok a >>= f) = f a := rfl

/-- `do`-unfolding for a failing first step. -/
theorem except_bind_error {α β ε : Type} (e : ε) (f : α → Except ε β) :
    ((Except.error e : Except ε α) >>= f) = Except.error e := rfl

/-- `pure` on `Except` is `ok`. -/
theorem except_pure {α ε : Type} (a : α) : (pure a : Except ε α) = .ok a := rfl

/-- A successful lookup makes the key-membership test true. -/
theorem jlookup_any_true {kvs : List (String × Json)} {k : String} {v : Json}
    (h : jlookup kvs k = some v) :
    kvs.any (fun kv => kv.1 = k) = true := by
  induction kvs with
  | nil => simp [jlookup] at h
  | cons hd tl ih =>
    rw [jlookup] at h
    by_cases hk : hd.1 = k
    · simp [List.any_cons, hk]
    · cases hd with
      | mk k' v' =>
        simp only at hk
        rw [if_neg hk] at h
        simp [List.any_cons, ih h]

/-- A true key-membership test yields a successful lookup. -/
theorem any_true_jlookup {kvs : List (String × Json)} {k : String}
    (h : kvs.any (fun kv => kv.1 = k) = true) :
    ∃ v, jlookup kvs k = some v := by
  induction kvs with
  | nil => simp at h
  | cons hd tl ih =>
    cases hd with
    | mk k' v' =>
      by_cases hk : k' = k
      · exact ⟨v', by simp [jlookup, hk]⟩
      · have h' : tl.any (fun kv => kv.1 = k) = true := by
          simpa [List.any_cons, hk] using h
        obtain ⟨v, hv⟩ := ih h'
        exact ⟨v, by simp [jlookup, hk, hv]⟩

/-- The empty header value decodes to nothing. -/
theorem b64JsonDecode_empty : b64JsonDecode "" = none := by decide

/-! ## Claim C3 -/

/-- **C3**: whenever the primary token resolves to a non-empty string
`p` (the decoded `exchanged_token`, or else the `Bearer`-stripped
`Authorization` value), the delegation chain is exactly the hop-1
record for `p` followed — in this order, never reversed — by the hop-2
record for the captured secondary token when one was captured and
non-empty, and by nothing otherwise; hop 1 always carries `p`, the
credential used to reach the bridge. -/
theorem chat_delegation_chain (tc : TokenContext) (last : Option String)
    (p : String) (hp : resolvePrimary tc = some (.str p)) (hne : p ≠ "") :
    chat_exchanged_tokens tc last =
      .ok (⟨p, decode_jwt_payload p, 1, hop1Description⟩ ::
        (match last with
         | some s =>
           if s ≠ "" then
             [⟨stripBearer s, decode_jwt_payload (stripBearer s), 2,
               hop2Description⟩]
           else []
         | none => [])) := by
  unfold chat_exchanged_tokens
  rw [hp]
  cases last with
  | none => simp [pyTruthy, hne, except_bind_ok, except_pure]
  | some s =>
    by_cases hs : s = ""
    · simp [pyTruthy, hne, hs, except_bind_ok, except_pure]
    · simp [pyTruthy, hne, hs, except_bind_ok, except_pure]

/-- Witness for C3: an `Authorization: Bearer abc` request with a
captured secondary token `Bearer xyz` yields hop 1 = `abc` then
hop 2 = `xyz`. -/
theorem chat_delegation_chain_witness :
    chat_exchanged_tokens
      (TokenContext.make none none none (some "Bearer abc") none)
      (some "Bearer xyz") =
      .ok [⟨"abc", decode_jwt_payload "abc", 1, hop1Description⟩,
           ⟨"xyz", decode_jwt_payload "xyz", 2, hop2Description⟩] := by
  have h := chat_delegation_chain
    (TokenContext.make none none none (some "Bearer abc") none)
    (some "Bearer xyz") "abc" (by decide) (by decide)
  rw [h]
  have hs : stripBearer "Bearer xyz" = "xyz" := by decide
  simp [hs]

/-! ## Claim C1 -/

/-- **C1** (amended): for every `x-introspection-token` header value
that base64-decodes to a JSON object whose `access_token` key holds a
*non-empty* string `T`, construction sets `exchanged_token` to exactly
`T`; when decoding fails, when the key is absent, or when it holds the
empty string, `exchanged_token` is `None`; and in all cases the
extraction denotes (the `try/except` catches every decoding error, so
it never raises). -/
theorem exchanged_token_spec (tc : TokenContext) :
    (∀ kvs T, b64JsonDecode tc.x_introspection_token = some (.obj kvs) →
      jlookup kvs "access_token" = some (.str T) → T ≠ "" →
      tc.exchanged_token = some (.str T))
    ∧ (b64JsonDecode tc.x_introspection_token = none →
      tc.exchanged_token = none)
    ∧ (∀ kvs, b64JsonDecode tc.x_introspection_token = some (.obj kvs) →
      jlookup kvs "access_token" = none → tc.exchanged_token = none)
    ∧ (∀ kvs, b64JsonDecode tc.x_introspection_token = some (.obj kvs) →
      jlookup kvs "access_token" = some (.str "") → tc.exchanged_token = none)
    ∧ (tc.exchanged_token = none ∨ ∃ v, tc.exchanged_token = some v) := by
  unfold TokenContext.exchanged_token TokenContext.extract_exchanged_token
  by_cases h0 : tc.x_introspection_token = ""
  · rw [h0]
    refine ⟨?_, ?_, ?_, ?_, ?_⟩
    · intro kvs T hdec
      rw [b64JsonDecode_empty] at hdec
      exact absurd hdec (by simp)
    · intro _; simp
    · intro kvs hdec
      rw [b64JsonDecode_empty] at hdec
      exact absurd hdec (by simp)
    · intro kvs hdec
      rw [b64JsonDecode_empty] at hdec
      exact absurd hdec (by simp)
    · simp
  · rw [if_neg h0]
    refine ⟨?_, ?_, ?_, ?_, ?_⟩
    · intro kvs T hdec hT hne
      rw [hdec]
      simp [pyGetOpt, pyGet, hT, pyTruthy, hne]
    · intro hdec; rw [hdec]
    · intro kvs hdec hT
      rw [hdec]
      simp [pyGetOpt, pyGet, hT, pyTruthy]
    · intro kvs hdec hT
      rw [hdec]
      simp [pyGetOpt, pyGet, hT, pyTruthy]
    · cases hdec : b64JsonDecode tc.x_introspection_token with
      | none => left; simp
      | some j =>
        cases hg : pyGetOpt j "access_token" with
        | error e => left; simp [hg]
        | ok v =>
          by_cases hv : pyTruthy v = true
          · right; exact ⟨v, by simp [hg, hv]⟩
          · left; simp [hg, hv]

/-- Witness for C1: a header carrying `{"access_token": "tokA"}` in
base64 yields exactly `tokA`. -/
theorem exchanged_token_spec_witness :
    TokenContext.exchanged_token
      (TokenContext.make none none none none
        (some "eyJhY2Nlc3NfdG9rZW4iOiAidG9rQSJ9")) = some (.str "tokA") :=
  (exchanged_token_spec _).1 [("access_token", .str "tokA")] "tokA"
    (by decide) (by decide) (by decide)

/-- Counterexample to C1 as stated: the header
`eyJhY2Nlc3NfdG9rZW4iOiAiIn0=` is the base64 encoding of the JSON
object `\x7b"access_token": ""\x7d`, whose `access_token` key maps to the
string `""`; yet `exchanged_token` is `None`, not `""`, because the
code tests the extracted value for truthiness. -/
theorem exchanged_token_empty_string_cex :
    b64JsonDecode "eyJhY2Nlc3NfdG9rZW4iOiAiIn0=" =
      some (.obj [("access_token", .str "")])
    ∧ TokenContext.exchanged_token
        (TokenContext.make none none none none
          (some "eyJhY2Nlc3NfdG9rZW4iOiAiIn0=")) ≠ some (.str "") := by
  constructor
  · decide
  · decide

/-! ## Claim C7 -/

/-- **C7**: for every `TokenContext`, `get_headers(include_auth=False)`
never contains an `Authorization` key and carries exactly the keys
`X-User-Scopes`, `X-User-Sub`, `X-Actor-Chain`;
`get_headers(include_auth=True)` contains `Authorization` iff a
non-empty `Authorization` header value was present at construction,
and otherwise carries the same three fixed keys. -/
theorem get_headers_spec (us usub ac auth xit : Option String) :
    ((TokenContext.make us usub ac auth xit).get_headers false).map Prod.fst =
      ["X-User-Scopes", "X-User-Sub", "X-Actor-Chain"]
    ∧ ("Authorization" ∉
        ((TokenContext.make us usub ac auth xit).get_headers false).map Prod.fst)
    ∧ (("Authorization" ∈
        ((TokenContext.make us usub ac auth xit).get_headers true).map Prod.fst)
      ↔ ∃ a, auth = some a ∧ a ≠ "")
    ∧ (((TokenContext.make us usub ac auth xit).get_headers true).map Prod.fst =
        ["X-User-Scopes", "X-User-Sub", "X-Actor-Chain", "Authorization"]
      ∨ ((TokenContext.make us usub ac auth xit).get_headers true).map Prod.fst =
        ["X-User-Scopes", "X-User-Sub", "X-Actor-Chain"]) := by
  refine ⟨?_, ?_, ?_, ?_⟩
  · simp [TokenContext.get_headers]
  · simp [TokenContext.get_headers]
  · constructor
    · intro hmem
      unfold TokenContext.get_headers at hmem
      by_cases ha : (TokenContext.make us usub ac auth xit).authorization = ""
      · simp [ha] at hmem
      · cases auth with
        | none =>
          exact absurd
            (show (TokenContext.make us usub ac none xit).authorization = ""
              from rfl) ha
        | some a =>
          exact ⟨a, rfl, by simpa [TokenContext.make, orEmpty] using ha⟩
    · rintro ⟨a, rfl, hne⟩
      simp [TokenContext.get_headers, TokenContext.make, orEmpty, hne]
  · unfold TokenContext.get_headers
    by_cases ha : (TokenContext.make us usub ac auth xit).authorization = ""
    · right; simp [ha]
    · left; simp [ha]

/-! ## Claim C8 -/

/-- **C8**: the asynchronous wrapper never propagates an exception: its
result type is a plain value, a successful `call_tool` outcome is
passed through, and any raised error is caught and returned as a string
carrying the `"ERROR: "` failure marker, the tool name and the error
message, so the orchestrator's loop continues. -/
theorem tool_coroutine_catches (tool_name : String) (e : PyErr) (v : Json) :
    make_tool_coroutine tool_name (.error e) =
      .str ("ERROR: " ++ ("Error calling " ++ tool_name ++ ": " ++ pyErrStr e))
    ∧ make_tool_coroutine tool_name (.ok v) = v := ⟨rfl, rfl⟩

/-! ## Claim C9 -/

/-- **C9**: the synchronous wrapper fails for every tool name and every
argument set by raising `NotImplementedError`; its type neither
receives nor produces an `MCPState`, reflecting that no remote call is
performed. -/
theorem tool_func_raises (tool_name : String) (kwargs : Json) :
    make_tool_func tool_name kwargs =
      .error (.notImplementedError
        ("Use async version of " ++ tool_name ++ " - sync calls not supported")) :=
  rfl

/-! ## Claim C2 -/

/-- The error branch of `call_tool` never produces a success value. -/
theorem tool_error_branch_is_error (tool_name : String) (result : Json) :
    ∃ e, MCPClient.tool_error_branch tool_name result = .error e := by
  unfold MCPClient.tool_error_branch
  cases hsub : pySubscript result "error" with
  | error e => exact ⟨e, by simp [hsub, except_bind_error]⟩
  | ok err =>
    cases hmsg : pyGet err "message" (.str "Unknown error") with
    | error e => exact ⟨e, by simp [hsub, hmsg, except_bind_ok, except_bind_error]⟩
    | ok msg =>
      cases hdat : pyGet err "data" (.obj []) with
      | error e =>
        exact ⟨e, by simp [hsub, hmsg, hdat, except_bind_ok, except_bind_error]⟩
      | ok d =>
        exact ⟨.exc ("Tool '" ++ tool_name ++ "' failed: " ++ pyStr msg),
          by simp [hsub, hmsg, hdat, except_bind_ok]⟩

/-- On a JSON-RPC-shaped error envelope, the error branch raises the
message that names the tool and the original message text. -/
theorem tool_error_branch_message (tool_name : String)
    (kvs evs : List (String × Json)) (m : String)
    (herr : jlookup kvs "error" = some (.obj evs))
    (hmsg : jlookup evs "message" = some (.str m)) :
    MCPClient.tool_error_branch tool_name (.obj kvs) =
      .error (.exc ("Tool '" ++ tool_name ++ "' failed: " ++ m)) := by
  unfold MCPClient.tool_error_branch
  cases hdat : jlookup evs "data" with
  | none => simp [pySubscript, herr, pyGet, hmsg, hdat, pyStr, except_bind_ok]
  | some d => simp [pySubscript, herr, pyGet, hmsg, hdat, pyStr, except_bind_ok]

/-- **C2**: whenever a `tools/call` response body contains an `error`
field, `call_tool` never returns normally; and in the JSON-RPC-shaped
case (a status-passing response whose `error` member is an object with
a string `message`), the raised error carries exactly the tool name and
the original message text. -/
theorem call_tool_error_not_success (st : MCPState) (tool_name : String)
    (arguments : Json) (resp : HttpResponse) :
    (pyContains resp.body "error" = .ok true →
      ∃ e, (MCPClient.call_tool st tool_name arguments resp).1 = .error e)
    ∧ (statusOk resp.status = true → ∀ kvs evs m,
        resp.body = .obj kvs →
        jlookup kvs "error" = some (.obj evs) →
        jlookup evs "message" = some (.str m) →
        (MCPClient.call_tool st tool_name arguments resp).1 =
          .error (.exc ("Tool '" ++ tool_name ++ "' failed: " ++ m))) := by
  constructor
  · intro hc
    unfold MCPClient.call_tool
    cases hrs : MCPClient.raise_for_status resp with
    | error e => exact ⟨e, by simp⟩
    | ok u =>
      obtain ⟨e, he⟩ := tool_error_branch_is_error tool_name resp.body
      exact ⟨e, by simp [hc, he]⟩
  · intro hst kvs evs m hb herr hmsg
    have hrs : MCPClient.raise_for_status resp = .ok () := by
      simp [MCPClient.raise_for_status, hst]
    have hc : pyContains resp.body "error" = .ok true := by
      rw [hb]; simp [pyContains, jlookup_any_true herr]
    unfold MCPClient.call_tool
    rw [hrs]
    rw [hb] at hc
    simp only [hb]
    simp [hc, tool_error_branch_message tool_name kvs evs m herr hmsg]

/-- Witness for C2: a 200 response whose body carries a JSON-RPC error
envelope surfaces as an exception naming the tool and the message. -/
theorem call_tool_error_not_success_witness :
    (MCPClient.call_tool MCPClient.new "get_salary" (Json.obj [])
      ⟨200, [],
        .obj [("jsonrpc", .str "2.0"), ("id", .num 3),
              ("error", .obj [("message", .str "insufficient scope"),
                              ("data", .obj [])])]⟩).1 =
      .error (.exc "Tool 'get_salary' failed: insufficient scope") := by
  have h := (call_tool_error_not_success MCPClient.new "get_salary" (Json.obj [])
      ⟨200, [],
        .obj [("jsonrpc", .str "2.0"), ("id", .num 3),
              ("error", .obj [("message", .str "insufficient scope"),
                              ("data", .obj [])])]⟩).2
    (by decide)
    [("jsonrpc", .str "2.0"), ("id", .num 3),
     ("error", .obj [("message", .str "insufficient scope"),
                     ("data", .obj [])])]
    [("message", .str "insufficient scope"), ("data", .obj [])]
    "insufficient scope" rfl (by decide) (by decide)
  rw [h]
  exact congrArg (fun s => Except.error (PyErr.exc s)) (by decide)

/-! ## Claim C4 -/

/-- Every full operation advances `request_id` by exactly one (the
single `_next_id()` call it makes while building its envelope). -/
theorem opExec_request_id (st : MCPState) (op : MCPOp) (resp : HttpResponse) :
    (opExec st op resp).request_id = st.request_id + 1 := by
  cases op with
  | initOp =>
    unfold opExec MCPClient.init_rpc MCPClient.init_request MCPClient.next_id
    dsimp only
    repeat' split
    all_goals rfl
  | listTools =>
    unfold opExec MCPClient.list_tools MCPClient.list_tools_request
      MCPClient.next_id
    dsimp only
    repeat' split
    all_goals rfl
  | callTool n a =>
    unfold opExec MCPClient.call_tool MCPClient.call_tool_request
      MCPClient.next_id
    dsimp only
    repeat' split
    all_goals rfl

/-- The envelope posted by each operation carries exactly the freshly
incremented `request_id`. -/
theorem opRequest_id (st : MCPState) (op : MCPOp) :
    (jsonrpcId (opRequest st op).1).getD 0 = ((st.request_id + 1 : Nat) : Int) := by
  cases op <;>
    simp [opRequest, MCPClient.init_request, MCPClient.list_tools_request,
      MCPClient.call_tool_request, MCPClient.next_id, MCPClient.jsonrpc_request,
      jsonrpcId, jlookup]

/-- The IDs issued along a run are consecutive from the next counter
value. -/
theorem issuedIds_eq (l : List (MCPOp × HttpResponse)) (st : MCPState) :
    issuedIds st l =
      (List.range' (st.request_id + 1) l.length).map (fun n : Nat => (n : Int)) := by
  induction l generalizing st with
  | nil => simp [issuedIds]
  | cons hd tl ih =>
    cases hd with
    | mk op resp =>
      rw [issuedIds, opRequest_id, ih, opExec_request_id, List.length_cons,
        List.range'_succ]
      simp

/-- **C4**: for a fresh `MCPClient` and any sequence of `initialize`,
`list_tools` and `call_tool` operations, the JSON-RPC ids attached to
the outbound envelopes are exactly `1, 2, 3, …` in order of issue —
hence strictly increasing and unique, starting at 1. -/
theorem request_ids_sequential (ops : List (MCPOp × HttpResponse)) :
    issuedIds MCPClient.new ops =
      (List.range' 1 ops.length).map (fun n : Nat => (n : Int))
    ∧ List.Pairwise (· < ·) (issuedIds MCPClient.new ops) := by
  have h := issuedIds_eq ops MCPClient.new
  constructor
  · simpa [MCPClient.new] using h
  · rw [h]
    exact List.Pairwise.map (fun n : Nat => (n : Int))
      (fun a b hab => Int.ofNat_lt.mpr hab)
      (List.pairwise_lt_range' _ _)

/-! ## Claim C5 -/

/-- An absent key makes the key-membership test false. -/
theorem jlookup_none_any {kvs : List (String × Json)} {k : String}
    (h : jlookup kvs k = none) :
    kvs.any (fun kv => kv.1 = k) = false := by
  induction kvs with
  | nil => simp
  | cons hd tl ih =>
    cases hd with
    | mk k' v' =>
      by_cases hk : k' = k
      · rw [jlookup, if_pos hk] at h
        exact absurd h (by simp)
      · rw [jlookup, if_neg hk] at h
        simp [List.any_cons, hk, ih h]

/-- When `result.content` is a non-empty list whose head is an object,
the success branch returns the head's `text` member, defaulting to the
empty string. -/
theorem tool_success_branch_first (kvs rkvs ckvs : List (String × Json))
    (cs : List Json)
    (hres : jlookup kvs "result" = some (.obj rkvs))
    (hcont : jlookup rkvs "content" = some (.arr (.obj ckvs :: cs))) :
    MCPClient.tool_success_branch (.obj kvs) =
      .ok ((jlookup ckvs "text").getD (.str "")) := by
  unfold MCPClient.tool_success_branch
  cases htext : jlookup ckvs "text" with
  | none =>
    simp [pyGet, hres, hcont, htext, pyTruthy, pyLen, pyIndexZero, except_bind_ok]
  | some v =>
    simp [pyGet, hres, hcont, htext, pyTruthy, pyLen, pyIndexZero, except_bind_ok]

/-- When `result.content` is absent or the empty list, the success
branch returns the raw `result` object. -/
theorem tool_success_branch_raw (kvs rkvs : List (String × Json))
    (hres : jlookup kvs "result" = some (.obj rkvs))
    (hcont : jlookup rkvs "content" = none ∨
      jlookup rkvs "content" = some (.arr [])) :
    MCPClient.tool_success_branch (.obj kvs) = .ok (.obj rkvs) := by
  unfold MCPClient.tool_success_branch
  rcases hcont with hcont | hcont
  · simp [pyGet, hres, hcont, pyTruthy, except_bind_ok]
  · simp [pyGet, hres, hcont, pyTruthy, except_bind_ok]

/-- **C5** (amended): for a status-passing `tools/call` response whose
body has no `error` field, `call_tool` returns the `text` member —
defaulting to the empty string — of the first element of
`result.content` whenever that element is an object in a non-empty
content list; it returns the raw `result` object when `content` is
absent or empty; and the response
`\x7b"result": \x7b"content": [\x7b"text": "120000"\x7d]\x7d\x7d` yields
the string `"120000"`. -/
theorem call_tool_success_unwrap (st : MCPState) (tool_name : String)
    (arguments : Json) (resp : HttpResponse)
    (hst : statusOk resp.status = true) :
    (∀ kvs rkvs ckvs cs,
      resp.body = .obj kvs → jlookup kvs "error" = none →
      jlookup kvs "result" = some (.obj rkvs) →
      jlookup rkvs "content" = some (.arr (.obj ckvs :: cs)) →
      (MCPClient.call_tool st tool_name arguments resp).1 =
        .ok ((jlookup ckvs "text").getD (.str "")))
    ∧ (∀ kvs rkvs,
      resp.body = .obj kvs → jlookup kvs "error" = none →
      jlookup kvs "result" = some (.obj rkvs) →
      (jlookup rkvs "content" = none ∨
        jlookup rkvs "content" = some (.arr [])) →
      (MCPClient.call_tool st tool_name arguments resp).1 = .ok (.obj rkvs))
    ∧ (MCPClient.call_tool MCPClient.new "get_salary"
        (.obj [("employee_id", .str "emp-001")])
        ⟨200, [], .obj [("result", .obj [("content",
          .arr [.obj [("text", .str "120000")]])])]⟩).1 =
        .ok (.str "120000") := by
  have hrs : MCPClient.raise_for_status resp = .ok () := by
    simp [MCPClient.raise_for_status, hst]
  refine ⟨?_, ?_, ?_⟩
  · intro kvs rkvs ckvs cs hb herr hres hcont
    have hc : pyContains (Json.obj kvs) "error" = .ok false := by
      simp [pyContains, jlookup_none_any herr]
    unfold MCPClient.call_tool
    rw [hrs]
    simp only [hb]
    simp [hc, tool_success_branch_first kvs rkvs ckvs cs hres hcont]
  · intro kvs rkvs hb herr hres hcont
    have hc : pyContains (Json.obj kvs) "error" = .ok false := by
      simp [pyContains, jlookup_none_any herr]
    unfold MCPClient.call_tool
    rw [hrs]
    simp only [hb]
    simp [hc, tool_success_branch_raw kvs rkvs hres hcont]
  · decide

/-- Witness for C5 (amended): the end-to-end `get_salary` scenario
yields the string `"120000"`. -/
theorem call_tool_success_unwrap_witness :
    (MCPClient.call_tool MCPClient.new "get_salary"
      (.obj [("employee_id", .str "emp-001")])
      ⟨200, [], .obj [("result", .obj [("content",
        .arr [.obj [("text", .str "120000")]])])]⟩).1 =
      .ok (.str "120000") :=
  (call_tool_success_unwrap MCPClient.new "get_salary"
    (.obj [("employee_id", .str "emp-001")])
    ⟨200, [], .obj [("result", .obj [("content",
      .arr [.obj [("text", .str "120000")]])])]⟩ (by decide)).2.2

/-- Counterexample to C5 as stated: on the result shape
`\x7b"content": [\x7b\x7d]\x7d` — whose first content element has no
`text` member, so the claim requires the raw result object —
`call_tool` instead returns the empty string. -/
theorem call_tool_no_text_default_cex :
    (MCPClient.call_tool MCPClient.new "get_salary" (.obj [])
      ⟨200, [], .obj [("result", .obj [("content", .arr [.obj []])])]⟩).1 =
      .ok (.str "")
    ∧ (Json.str "") ≠ (Json.obj [("content", .arr [.obj []])]) := by
  constructor
  · decide
  · decide

/-! ## Claim C6 -/

/-- The argument-schema class the if/elif chain of
`_create_langchain_tool` assigns to each known tool name; `none` for
unrecognised names. -/
def schemaFor (n : String) : Option ArgsSchema :=
  if n = "get_employee" then some .GetEmployeeArgs
  else if n = "update_employee" then some .UpdateEmployeeArgs
  else if n = "list_departments" then some .ListDepartmentsArgs
  else if n = "get_salary" then some .GetSalaryArgs
  else if n = "update_salary" then some .UpdateSalaryArgs
  else if n = "get_org_chart" then some .GetOrgChartArgs
  else if n = "list_employees" then some .ListEmployeesArgs
  else if n = "list_employees_with_salaries" then
    some .ListEmployeesWithSalariesArgs
  else if n = "list_employees_by_department" then
    some .ListEmployeesByDepartmentArgs
  else none

/-- The binding the factory produces for one descriptor: present
exactly when the descriptor's `name` is a known tool name. -/
def bindingOf (t : Json) : Option ToolBinding :=
  match t with
  | .obj kvs =>
    match jlookup kvs "name" with
    | some (.str n) =>
      (schemaFor n).map
        (fun sch => ⟨n, (jlookup kvs "description").getD (.str ""), sch⟩)
    | _ => none
  | _ => none

set_option maxHeartbeats 1000000 in
/-- `_create_langchain_tool` computes `bindingOf` on a well-named
descriptor. -/
theorem create_tool_eq (kvs : List (String × Json)) (n : String)
    (hn : jlookup kvs "name" = some (.str n)) :
    create_langchain_tool (.str n) (.obj kvs) = .ok (bindingOf (.obj kvs)) := by
  have hbind : bindingOf (.obj kvs) =
      (schemaFor n).map
        (fun sch =>
          (⟨n, (jlookup kvs "description").getD (.str ""), sch⟩ : ToolBinding)) := by
    simp [bindingOf, hn]
  rw [hbind]
  unfold create_langchain_tool schemaFor
  cases hdesc : jlookup kvs "description" with
  | none =>
    simp only [pyGet, hdesc, except_bind_ok, except_pure, pyEqStr,
      decide_eq_true_eq, Option.getD_none]
    split_ifs <;> simp_all
  | some d =>
    simp only [pyGet, hdesc, except_bind_ok, except_pure, pyEqStr,
      decide_eq_true_eq, Option.getD_some]
    split_ifs <;> simp_all

/-- One loop iteration appends exactly the binding of its descriptor. -/
theorem add_tool_eq (acc : List ToolBinding) (kvs : List (String × Json))
    (n : String) (hn : jlookup kvs "name" = some (.str n)) :
    add_tool acc (.obj kvs) = .ok (acc ++ (bindingOf (.obj kvs)).toList) := by
  unfold add_tool
  have hs : pySubscript (.obj kvs) "name" = .ok (.str n) := by
    simp [pySubscript, hn]
  rw [hs, except_bind_ok, create_tool_eq kvs n hn, except_bind_ok]
  cases hb : bindingOf (.obj kvs) <;> simp [hb, except_pure]

/-- The fold over well-named descriptors succeeds and accumulates the
bindings in order. -/
theorem foldl_add_tool (ts : List Json) (acc : List ToolBinding)
    (h : ∀ t ∈ ts, ∃ kvs n, t = .obj kvs ∧ jlookup kvs "name" = some (.str n)) :
    ts.foldlM add_tool acc = .ok (acc ++ ts.filterMap bindingOf) := by
  induction ts generalizing acc with
  | nil => simp [List.foldlM, except_pure]
  | cons t ts ih =>
    obtain ⟨kvs, n, rfl, hn⟩ := h _ (List.mem_cons_self _ _)
    rw [List.foldlM_cons, add_tool_eq acc kvs n hn, except_bind_ok,
      ih _ (fun x hx => h x (List.mem_cons_of_mem _ hx))]
    cases hb : bindingOf (.obj kvs) <;>
      simp [hb, List.filterMap_cons, Option.toList]

/-- The logging comprehension succeeds on well-named descriptors. -/
theorem names_of_ok (ts : List Json)
    (h : ∀ t ∈ ts, ∃ kvs n, t = .obj kvs ∧ jlookup kvs "name" = some (.str n)) :
    ∃ ns, names_of ts = .ok ns := by
  induction ts with
  | nil => exact ⟨[], rfl⟩
  | cons t ts ih =>
    obtain ⟨kvs, n, rfl, hn⟩ := h _ (List.mem_cons_self _ _)
    obtain ⟨ns, hns⟩ := ih (fun x hx => h x (List.mem_cons_of_mem _ hx))
    refine ⟨.str n :: ns, ?_⟩
    unfold names_of
    simp [pySubscript, hn, hns, except_bind_ok, except_pure]

/-- A recognised schema means the name is in the known set. -/
theorem schemaFor_mem (n : String) (sch : ArgsSchema)
    (h : schemaFor n = some sch) : n ∈ knownToolNames := by
  unfold schemaFor at h
  split_ifs at h <;> simp_all [knownToolNames]

/-- **C6**: for every descriptor list whose members carry string names,
the factory produces exactly one binding per descriptor whose name is
in the fixed known set and drops the others (not failing on them); in
particular `get_employee` + `unknown_tool_x` yields exactly the one
`get_employee` binding. -/
theorem factory_known_tools (mcp_tools : List Json)
    (h : ∀ t ∈ mcp_tools,
      ∃ kvs n, t = .obj kvs ∧ jlookup kvs "name" = some (.str n)) :
    get_available_tools mcp_tools = .ok (mcp_tools.filterMap bindingOf)
    ∧ (∀ b ∈ mcp_tools.filterMap bindingOf, b.name ∈ knownToolNames)
    ∧ get_available_tools
        [.obj [("name", .str "get_employee"),
               ("description", .str "Get employee")],
         .obj [("name", .str "unknown_tool_x")]] =
      .ok [⟨"get_employee", .str "Get employee", .GetEmployeeArgs⟩] := by
  refine ⟨?_, ?_, ?_⟩
  · unfold get_available_tools
    obtain ⟨ns, hns⟩ := names_of_ok mcp_tools h
    rw [hns, except_bind_ok, foldl_add_tool mcp_tools [] h]
    simp
  · intro b hb
    rw [List.mem_filterMap] at hb
    obtain ⟨t, _, hbt⟩ := hb
    cases t with
    | obj kvs =>
      simp only [bindingOf] at hbt
      cases hname : jlookup kvs "name" with
      | none => rw [hname] at hbt; exact absurd hbt (by simp)
      | some nv =>
        rw [hname] at hbt
        cases nv with
        | str n =>
          obtain ⟨sch, hsch, hbeq⟩ := Option.map_eq_some'.mp hbt
          have hname_b : b.name = n := by rw [← hbeq]
          rw [hname_b]
          exact schemaFor_mem n sch hsch
        | null => exact absurd hbt (by simp)
        | bool x => exact absurd hbt (by simp)
        | num x => exact absurd hbt (by simp)
        | arr x => exact absurd hbt (by simp)
        | obj x => exact absurd hbt (by simp)
    | null => exact absurd hbt (by simp [bindingOf])
    | bool x => exact absurd hbt (by simp [bindingOf])
    | num x => exact absurd hbt (by simp [bindingOf])
    | str x => exact absurd hbt (by simp [bindingOf])
    | arr x => exact absurd hbt (by simp [bindingOf])
  · decide

/-- Witness for C6: the two-descriptor discovery scenario produces
exactly the `get_employee` binding. -/
theorem factory_known_tools_witness :
    get_available_tools
      [.obj [("name", .str "get_employee"),
             ("description", .str "Get employee")],
       .obj [("name", .str "unknown_tool_x")]] =
      .ok [⟨"get_employee", .str "Get employee", .GetEmployeeArgs⟩] :=
  (factory_known_tools
    [.obj [("name", .str "get_employee"),
           ("description", .str "Get employee")],
     .obj [("name", .str "unknown_tool_x")]]
    (by
      intro t ht
      rcases List.mem_cons.mp ht with rfl | ht2
      · exact ⟨[("name", .str "get_employee"),
                ("description", .str "Get employee")], "get_employee",
               rfl, by decide⟩
      · rcases List.mem_cons.mp ht2 with rfl | h3
        · exact ⟨[("name", .str "unknown_tool_x")], "unknown_tool_x",
                 rfl, by decide⟩
        · exact absurd h3 (by simp))).2.2

/-! ## Claim C10 -/

/-- **C10** (amended): inside `call_tool`, once the HTTP status check
has passed, a non-empty `X-MCP-Token` response-header value overwrites
`last_mcp_token` before the JSON-RPC `error` field is examined — so it
is captured even when the same call then fails with an error envelope;
a response without the header (or with an empty value, or one rejected
by the status check before the capture point) leaves `last_mcp_token`
at its previous value. -/
theorem capture_before_error_check (st : MCPState) (tool_name : String)
    (arguments : Json) (resp : HttpResponse) :
    (statusOk resp.status = true →
      ∀ v, headersGet resp.headers "X-MCP-Token" = some v → v ≠ "" →
      (MCPClient.call_tool st tool_name arguments resp).2.last_mcp_token = some v)
    ∧ (headersGet resp.headers "X-MCP-Token" = none →
      (MCPClient.call_tool st tool_name arguments resp).2.last_mcp_token =
        st.last_mcp_token)
    ∧ (headersGet resp.headers "X-MCP-Token" = some "" →
      (MCPClient.call_tool st tool_name arguments resp).2.last_mcp_token =
        st.last_mcp_token)
    ∧ (statusOk resp.status = false →
      (MCPClient.call_tool st tool_name arguments resp).2.last_mcp_token =
        st.last_mcp_token) := by
  refine ⟨?_, ?_, ?_, ?_⟩
  · intro hst v hv hne
    have hrs : MCPClient.raise_for_status resp = .ok () := by
      simp [MCPClient.raise_for_status, hst]
    unfold MCPClient.call_tool
    rw [hrs]
    simp only [hv, hne]
    split <;> simp [MCPClient.call_tool_request, MCPClient.next_id, hne]
  · intro hv
    unfold MCPClient.call_tool
    cases hrs : MCPClient.raise_for_status resp with
    | error e => simp [MCPClient.call_tool_request, MCPClient.next_id]
    | ok u =>
      simp only [hv]
      split <;> simp [MCPClient.call_tool_request, MCPClient.next_id]
  · intro hv
    unfold MCPClient.call_tool
    cases hrs : MCPClient.raise_for_status resp with
    | error e => simp [MCPClient.call_tool_request, MCPClient.next_id]
    | ok u =>
      simp only [hv]
      split <;> simp [MCPClient.call_tool_request, MCPClient.next_id]
  · intro hst
    have hrs : MCPClient.raise_for_status resp =
        .error (.httpStatusError resp.status) := by
      simp [MCPClient.raise_for_status, hst]
    unfold MCPClient.call_tool
    rw [hrs]
    simp [MCPClient.call_tool_request, MCPClient.next_id]

/-- Witness for C10 (amended): on a 200 response that carries both an
`X-MCP-Token` header and a JSON-RPC error envelope, the token is
captured even though the call fails. -/
theorem capture_before_error_check_witness :
    (MCPClient.call_tool MCPClient.new "get_salary" (Json.obj [])
      ⟨200, [("X-MCP-Token", "tok2")],
        .obj [("error", .obj [("message", .str "boom")])]⟩).2.last_mcp_token =
      some "tok2" :=
  (capture_before_error_check MCPClient.new "get_salary" (Json.obj [])
      ⟨200, [("X-MCP-Token", "tok2")],
        .obj [("error", .obj [("message", .str "boom")])]⟩).1
    (by decide) "tok2" (by decide) (by decide)

/-- Counterexample to C10 as stated: a response carrying an
`X-MCP-Token` header but a non-2xx status never reaches the capture
point (`raise_for_status` raises first), so `last_mcp_token` stays
`None` instead of being overwritten with the header value. -/
theorem capture_skipped_on_http_error_cex :
    headersGet [("X-MCP-Token", "tok2")] "X-MCP-Token" = some "tok2"
    ∧ (MCPClient.call_tool MCPClient.new "get_salary" (Json.obj [])
        ⟨500, [("X-MCP-Token", "tok2")],
          .obj [("error", .obj [("message", .str "boom")])]⟩).2.last_mcp_token
      ≠ some "tok2" := by
  constructor
  · decide
  · decide

end HRBridge
